import Mathlib

/-!
Verification of the Lightsprint Claude Code plugin
(`SprintsAI/lightsprint-claude-code-plugin`).

This file gives a shallow embedding of the plugin's scripts —
`scripts/review-plan.js` (the plan-review hook), `scripts/sync-task.js`
(the task-sync hook), `scripts/ls-cli.js` (the CLI), and the library
modules `lib/client.js`, `lib/config.js`, `lib/task-map.js`,
`lib/plan-tracker.js` and `lib/status-mapper.js` — and proves the
behavioural properties stated in the repository's specification.

Modelling conventions:
* Each short-lived process invocation is modelled as a pure function
  from an environment record (stdin parse outcome, config lookup
  outcome, transcript contents, file-probe outcomes, outcomes of the
  individual network calls, the browser-callback event) to a result
  record (stdout decision object, exit code, the list of plan-upload
  requests issued, and the final on-disk active-plan record).
* JavaScript truthiness on strings is modelled explicitly: an absent
  field is `none` and the empty string is falsy.
* Network and file-system effects are oracle fields of the environment;
  the control flow that consumes them is translated statement by
  statement from the source.
-/

namespace Lightsprint

/-! ## lib/status-mapper.js -/

/-- `CC_TO_LS` / `ccToLsStatus`: map a Claude Code status to a
Lightsprint projectStatus (`undefined`, i.e. `none`, when unmapped). -/
def ccToLsStatus (s : String) : Option String :=
  if s = "pending" then some "todo"
  else if s = "in_progress" then some "in_progress"
  else if s = "completed" then some "done"
  else none

/-- `LS_TO_CC` / `lsToCcStatus`: map a Lightsprint projectStatus to a
Claude Code status (`undefined`, i.e. `none`, when unmapped). -/
def lsToCcStatus (s : String) : Option String :=
  if s = "todo" then some "pending"
  else if s = "in_progress" then some "in_progress"
  else if s = "in_review" then some "in_progress"
  else if s = "done" then some "completed"
  else none

/-! ## URL query parsing (application/x-www-form-urlencoded)

`review-plan.js` reads the review decision out of
`new URL(req.url, 'http://localhost').searchParams`.  We embed the
WHATWG form-urlencoded decoding that `URLSearchParams` performs:
`+` becomes a space and `%XX` is percent-decoded. -/

/-- Numeric value of a hexadecimal digit. -/
def hexVal (c : Char) : Option Nat :=
  if '0' ≤ c ∧ c ≤ '9' then some (c.toNat - '0'.toNat)
  else if 'a' ≤ c ∧ c ≤ 'f' then some (c.toNat - 'a'.toNat + 10)
  else if 'A' ≤ c ∧ c ≤ 'F' then some (c.toNat - 'A'.toNat + 10)
  else none

/-- Form-urlencoded decoding on a character list: `+` is a space and
`%XX` with two hex digits decodes to the byte `XX`; a malformed `%`
sequence is kept verbatim. -/
def formDecodeAux : List Char → List Char
  | [] => []
  | '+' :: rest => ' ' :: formDecodeAux rest
  | '%' :: a :: b :: rest =>
    match hexVal a, hexVal b with
    | some ha, some hb => Char.ofNat (16 * ha + hb) :: formDecodeAux rest
    | _, _ => '%' :: formDecodeAux (a :: b :: rest)
  | c :: rest => c :: formDecodeAux rest

/-- Form-urlencoded decoding on strings. -/
def formDecode (s : String) : String := ⟨formDecodeAux s.toList⟩

/-- Split a character list on a separator character (the list of
groups between separators; n separators yield n+1 groups). -/
def splitOnChar (sep : Char) : List Char → List (List Char)
  | [] => [[]]
  | c :: rest =>
    if c = sep then [] :: splitOnChar sep rest
    else
      match splitOnChar sep rest with
      | [] => [[c]]
      | g :: gs => (c :: g) :: gs

/-- Split a segment at its first `=`: the key and, when a `=` is
present, the raw value after it. -/
def splitFirstEq : List Char → List Char × Option (List Char)
  | [] => ([], none)
  | c :: rest =>
    if c = '=' then ([], some rest)
    else
      let kv := splitFirstEq rest
      (c :: kv.fst, kv.snd)

/-- Split a query string into decoded key/value pairs: segments are
separated by `&`, a segment is split at its first `=` (key without a
value gets the empty value), and empty segments are skipped. -/
def queryPairs (q : String) : List (String × String) :=
  (splitOnChar '&' q.toList).filterMap fun part =>
    match part with
    | [] => none
    | _ :: _ =>
      let kv := splitFirstEq part
      some (⟨formDecodeAux kv.fst⟩, ⟨formDecodeAux (kv.snd.getD [])⟩)

/-- `URLSearchParams.get`: first value stored under the key, `none`
(JS `null`) when the key is absent. -/
def searchParamsGet (q : String) (key : String) : Option String :=
  ((queryPairs q).find? fun p => p.fst = key).map (·.snd)

/-- JavaScript `x || dflt` on a nullable string: `null`/`undefined` and
the empty string both fall through to the default. -/
def jsOr (x : Option String) (dflt : String) : String :=
  match x with
  | none => dflt
  | some s => if s = "" then dflt else s

/-! ## `waitForCallback` in review-plan.js

The hook binds an ephemeral HTTP server; the handler reacts only to
requests whose pathname is `/callback`, parses `decision` (defaulting
to `"allow"`) and `feedback` (defaulting to `""`) out of the query
string, destroys all tracked sockets, closes the server and resolves.
If no `/callback` request arrives before the timer fires, the timer
callback destroys the sockets, closes the server and rejects with a
timeout error.

A run is modelled by the sequence of requests (pathname and query,
as produced by `new URL(req.url, ...)`) that arrive before the timer
would fire; the promise resolves on the first `/callback` request and
times out when there is none. -/

structure HttpRequest where
  pathname : String
  query : String
deriving Repr, DecidableEq

inductive WaitResult where
  /-- the promise resolved with `{ decision, feedback }` -/
  | resolved (decision feedback : String)
  /-- the timer fired: `reject(new Error('Plan review timed out.'))` -/
  | rejectedTimeout
deriving Repr, DecidableEq

structure WaitOutcome where
  result : WaitResult
  /-- `server.close()` was invoked -/
  serverClosed : Bool
  /-- every tracked socket was `destroy()`ed -/
  socketsDestroyed : Bool
deriving Repr, DecidableEq

/-- The request handler of `waitForCallback`: `none` when the request is
ignored (wrong pathname), otherwise the `(decision, feedback)` pair the
promise resolves with. -/
def handleCallbackRequest (r : HttpRequest) : Option (String × String) :=
  if r.pathname = "/callback" then
    some (jsOr (searchParamsGet r.query "decision") "allow",
          jsOr (searchParamsGet r.query "feedback") "")
  else none

/-- `waitForCallback` over the requests arriving before the timeout:
the first `/callback` request resolves the promise and tears the server
down; with no such request the timeout path tears the server down and
rejects. -/
def waitForCallback (requests : List HttpRequest) : WaitOutcome :=
  match requests.findSome? handleCallbackRequest with
  | some (d, f) => ⟨.resolved d f, true, true⟩
  | none => ⟨.rejectedTimeout, true, true⟩

/-! ## Plan extraction (review-plan.js)

`extractPlanFromTranscript` scans the JSONL transcript backwards for
the most recent assistant-authored `Write` tool call targeting a
plan-like file; `readPlanFromFile` probes `.claude/plan.md` then
`plan.md` under the working directory. -/

/-- Test for `plan[^/]*\.md$` at the head of an (already lowercased)
character list: the literal `plan`, then no `/` up to a final `.md`. -/
def planMdHere : List Char → Bool
  | 'p' :: 'l' :: 'a' :: 'n' :: t =>
    decide (3 ≤ t.length) &&
    (t.drop (t.length - 3) == ['.', 'm', 'd']) &&
    (t.take (t.length - 3)).all (fun c => c != '/')
  | _ => false

/-- The regex `/plan[^/]*\.md$/i` matches somewhere in the lowercased
character list. -/
def hasPlanMdLower : List Char → Bool
  | [] => false
  | c :: rest => planMdHere (c :: rest) || hasPlanMdLower rest

/-- `haystack` begins with `needle`. -/
def beginsWith : List Char → List Char → Bool
  | _, [] => true
  | [], _ :: _ => false
  | c :: cs, d :: ds => c == d && beginsWith cs ds

/-- `String.prototype.includes` on character lists: `pat` occurs as a
contiguous subsequence. -/
def containsSeq : List Char → List Char → Bool
  | [], pat => pat.isEmpty
  | c :: rest, pat => beginsWith (c :: rest) pat || containsSeq rest pat

/-- The plan-file heuristic of `extractPlanFromTranscript`:
`filePath.match(/plan[^/]*\.md$/i) || filePath.includes('.claude/plan')`. -/
def isPlanPath (p : String) : Bool :=
  hasPlanMdLower (p.toList.map Char.toLower) ||
  containsSeq p.toList ".claude/plan".toList

/-- A `tool_use` content block of a transcript message; absent JSON
fields are `none` (`block?.type`, `block?.name`, `block?.input?.file_path`,
`block?.input?.content`). -/
structure ToolBlock where
  type : Option String
  name : Option String
  inputFilePath : Option String
  inputContent : Option String
deriving Repr, DecidableEq

/-- `entry.message`: its role and, when `msg.content` is an array, the
content blocks. -/
structure TranscriptMessage where
  role : Option String
  content : Option (List ToolBlock)
deriving Repr, DecidableEq

/-- One parsed JSONL transcript entry. -/
structure TranscriptEntry where
  message : Option TranscriptMessage
deriving Repr, DecidableEq

/-- One transcript line: `none` when `JSON.parse` throws on it. -/
abbrev TranscriptLine := Option TranscriptEntry

/-- The inner block loop: the first block that is a `tool_use` named
`Write` whose `file_path` (defaulted to `""`) matches the plan
heuristic, together with its `content` field; later blocks of the same
entry are not consulted (the loop breaks). -/
def findPlanBlock : List ToolBlock → Option (String × Option String)
  | [] => none
  | b :: bs =>
    if b.type == some "tool_use" && b.name == some "Write" then
      if isPlanPath (jsOr b.inputFilePath "") then
        some (jsOr b.inputFilePath "", b.inputContent)
      else findPlanBlock bs
    else findPlanBlock bs

/-- The plan content one transcript entry contributes: its message must
be assistant-authored with an array of content blocks, and the first
matching `Write` block must carry truthy (non-empty) content. -/
def entryPlanContent (e : TranscriptEntry) : Option String :=
  match e.message with
  | none => none
  | some m =>
    if m.role == some "assistant" then
      match m.content with
      | none => none
      | some blocks =>
        match findPlanBlock blocks with
        | some (_, some c) => if c = "" then none else some c
        | _ => none
    else none

/-- The backwards scan (`for (let i = lines.length - 1; ...)`) over the
reversed line list: unparseable lines are skipped, and the first entry
contributing plan content wins. -/
def scanBack : List TranscriptLine → Option String
  | [] => none
  | l :: rest =>
    match l with
    | none => scanBack rest
    | some e =>
      match entryPlanContent e with
      | some c => some c
      | none => scanBack rest

/-- `extractPlanFromTranscript`: `readable` is `false` when the
transcript path is absent, the file does not exist or reading it
throws (every such case returns `null`); otherwise the lines are
scanned backwards. -/
def extractPlanFromTranscript (readable : Bool) (lines : List TranscriptLine) :
    Option String :=
  if readable then scanBack lines.reverse else none

/-- Outcome of probing one candidate plan file. -/
inductive ReadOutcome where
  /-- `existsSync`/`readFileSync` threw -/
  | readError
  /-- `existsSync` returned false -/
  | absent
  /-- the file exists with this raw content -/
  | found (content : String)
deriving Repr, DecidableEq

/-- `String.prototype.trim`. -/
def jsTrim (s : String) : String :=
  ⟨((s.toList.dropWhile Char.isWhitespace).reverse.dropWhile Char.isWhitespace).reverse⟩

/-- The fixed candidate list of `readPlanFromFile`:
`join(cwd, '.claude', 'plan.md')` then `join(cwd, 'plan.md')`. -/
def planCandidates (cwd : String) : List String :=
  [cwd ++ "/.claude/plan.md", cwd ++ "/plan.md"]

/-- The candidate loop of `readPlanFromFile`: a read error or a missing
file moves on to the next candidate; the first existing file whose
trimmed content is non-empty is returned (trimmed). -/
def probeCandidates (probe : String → ReadOutcome) : List String → Option String
  | [] => none
  | p :: rest =>
    match probe p with
    | .readError => probeCandidates probe rest
    | .absent => probeCandidates probe rest
    | .found content =>
      if jsTrim content = "" then probeCandidates probe rest
      else some (jsTrim content)

/-- `readPlanFromFile cwd`. -/
def readPlanFromFile (probe : String → ReadOutcome) (cwd : String) : Option String :=
  probeCandidates probe (planCandidates cwd)

/-- JS truthiness of a nullable string: `none` for `undefined`/`null`
and for the empty string. -/
def truthyStr : Option String → Option String
  | none => none
  | some s => if s = "" then none else some s

/-- The three-step plan resolution chain of `main` in review-plan.js:
`tool_input.plan`, then the transcript scan, then the candidate files. -/
def resolvePlan (toolPlan : Option String) (readable : Bool)
    (lines : List TranscriptLine) (probe : String → ReadOutcome)
    (cwd : String) : Option String :=
  match truthyStr toolPlan with
  | some p => some p
  | none =>
    match extractPlanFromTranscript readable lines with
    | some p => some p
    | none => readPlanFromFile probe cwd

/-! ## lib/client.js — authenticated requests with token refresh

`apiRequest` first runs `refreshTokenIfNeeded`; a failed refresh aborts
the call with an explicit re-authenticate error before any data request
is attempted.  The outcomes of the two `fetch` calls and the current
clock are oracle inputs; `projects.json` is modelled as an association
list from folder path to `ProjectLink` entry. -/

/-- One `projects.json` entry (a ProjectLink record). -/
structure ProjectEntry where
  accessToken : String
  refreshToken : String
  expiresAt : Nat
  projectId : Option String
  projectName : Option String
  baseUrl : Option String
deriving Repr, DecidableEq

/-- The in-memory config handed to the client (`requireConfig()` plus
the folder it was resolved from). -/
structure ClientConfig where
  folder : String
  accessToken : String
  refreshToken : Option String
  expiresAt : Option Nat
  baseUrl : String
  projectId : Option String
deriving Repr, DecidableEq

/-- The parsed JSON body of a token-endpoint response. -/
structure RefreshData where
  accessToken : String
  refreshTokenNew : String
  expiresIn : Nat
deriving Repr, DecidableEq

/-- Outcome of the `POST /oauth/token` fetch. -/
inductive RefreshFetch where
  /-- the fetch itself rejected (network error) -/
  | netError
  /-- an HTTP response with this status whose body parses to `data` -/
  | response (status : Nat) (data : RefreshData)
deriving Repr, DecidableEq

/-- `response.ok`: status in the 2xx range. -/
def httpOk (status : Nat) : Bool := 200 ≤ status && status < 300

/-- The `projects.json` contents. -/
def ProjectsFile := List (String × ProjectEntry)

/-- `projects[folder]`. -/
def lookupFolder (ps : ProjectsFile) (f : String) : Option ProjectEntry :=
  (ps.find? fun q => q.fst = f).map (·.snd)

/-- In-place update of the entry stored under `f`. -/
def updateFolder (ps : ProjectsFile) (f : String)
    (g : ProjectEntry → ProjectEntry) : ProjectsFile :=
  ps.map fun q => if q.fst = f then (q.fst, g q.snd) else q

/-- JS truthiness of a nullable number (absent and `0` are falsy). -/
def natTruthy : Option Nat → Bool
  | none => false
  | some k => k != 0

/-- JS truthiness of a nullable string (absent and `""` are falsy). -/
def strTruthy : Option String → Bool
  | none => false
  | some t => t != ""

def fiveMinutes : Nat := 5 * 60 * 1000

/-- `cfg.expiresAt && cfg.expiresAt > Date.now() + fiveMinutes`. -/
def tokenStillValid (now : Nat) (cfg : ClientConfig) : Bool :=
  natTruthy cfg.expiresAt && decide (now + fiveMinutes < cfg.expiresAt.getD 0)

/-- Result of `refreshTokenIfNeeded`: the returned boolean, the updated
in-memory config, the updated `projects.json`, the number of
token-endpoint calls and whether `projects.json` was rewritten. -/
structure RefreshOutcome where
  ok : Bool
  cfg : ClientConfig
  projects : ProjectsFile
  refreshCalls : Nat
  projectsWritten : Bool

/-- `refreshTokenIfNeeded` translated from lib/client.js. -/
def refreshTokenIfNeeded (now : Nat) (rf : RefreshFetch)
    (cfg : ClientConfig) (projects : ProjectsFile) : RefreshOutcome :=
  if tokenStillValid now cfg then
    ⟨true, cfg, projects, 0, false⟩
  else if !strTruthy cfg.refreshToken then
    ⟨false, cfg, projects, 0, false⟩
  else
    match rf with
    | .netError => ⟨false, cfg, projects, 1, false⟩
    | .response status data =>
      if !httpOk status then ⟨false, cfg, projects, 1, false⟩
      else
        let entryUpdate : ProjectEntry → ProjectEntry := fun entry =>
          { entry with accessToken := data.accessToken,
                       refreshToken := data.refreshTokenNew,
                       expiresAt := now + data.expiresIn * 1000 }
        let hit := (lookupFolder projects cfg.folder).isSome
        let projectsNew :=
          if hit then updateFolder projects cfg.folder entryUpdate else projects
        let cfgNew :=
          { cfg with accessToken := data.accessToken,
                     refreshToken := some data.refreshTokenNew,
                     expiresAt := some (now + data.expiresIn * 1000) }
        ⟨true, cfgNew, projectsNew, 1, hit⟩

/-- Outcome of the data-request `fetch`. -/
inductive DataFetch where
  | netError
  | response (status : Nat) (body : String)
deriving Repr, DecidableEq

/-- How an `apiRequest` call terminates. -/
inductive ApiResult where
  /-- an exception propagated out (network failure on the data fetch) -/
  | thrown
  /-- the explicit "unable to authenticate, re-run install" error -/
  | authError
  /-- the wrapped non-2xx error carrying status and body -/
  | apiError (status : Nat) (body : String)
  /-- success; `none` is the 204 no-content case -/
  | success (body : Option String)
deriving Repr, DecidableEq

structure ApiOutcome where
  result : ApiResult
  refreshCalls : Nat
  dataCalls : Nat
  cfg : ClientConfig
  projects : ProjectsFile

/-- `apiRequest` translated from lib/client.js: refresh check first,
abort on failure, then a single data request. -/
def apiRequest (now : Nat) (rf : RefreshFetch) (df : DataFetch)
    (cfg : ClientConfig) (projects : ProjectsFile) : ApiOutcome :=
  let r := refreshTokenIfNeeded now rf cfg projects
  if !r.ok then
    ⟨.authError, r.refreshCalls, 0, r.cfg, r.projects⟩
  else
    let res : ApiResult :=
      match df with
      | .netError => .thrown
      | .response status body =>
        if !httpOk status then .apiError status body
        else if status = 204 then .success none
        else .success (some body)
    ⟨res, r.refreshCalls, 1, r.cfg, r.projects⟩

/-! ## review-plan.js — the hook's main flow

`main` is a chain of guarded stages; every failure emits the allow
decision and exits 0, and only a completed review can emit deny.  The
outcomes of the effectful stages are oracle fields of `HookEnv`; the
browser callback is the `waitForCallback` model above, driven by the
requests that reach the ephemeral server. -/

/-- The `decision` object written to stdout. -/
structure HookDecision where
  behavior : String
  message : Option String
deriving Repr, DecidableEq

/-- The hook's stdout JSON: `{ hookSpecificOutput: { hookEventName,
decision } }`. -/
structure HookOutput where
  hookEventName : String
  decision : HookDecision
deriving Repr, DecidableEq

/-- `outputAllow()`. -/
def outputAllow : HookOutput :=
  ⟨"PermissionRequest", ⟨"allow", none⟩⟩

/-- `outputDeny(feedback)`: the message falls back to the default when
the feedback is falsy (`main` and `outputDeny` both apply the same
fallback, which collapses to one). -/
def outputDeny (feedback : String) : HookOutput :=
  ⟨"PermissionRequest", ⟨"deny", some (jsOr (some feedback) "Plan rejected by reviewer.")⟩⟩

/-- The `active-plan.json` record (lib/plan-tracker.js). -/
structure ActivePlan where
  planId : String
  projectId : String
  sessionId : Option String
deriving Repr, DecidableEq

/-- The parsed stdin fields `main` consumes. -/
structure HookInput where
  toolInputPlan : Option String
  sessionId : Option String
deriving Repr, DecidableEq

/-- Outcome of the on-demand `authenticate` call (lib/auth.js) when no
config exists for the folder. -/
inductive OAuthOutcome where
  /-- `authenticate` threw -/
  | threw
  /-- falsy result, `skipped` flag, or no access token -/
  | skippedOrNoToken
  /-- tokens received; the hook proceeds with the fresh config -/
  | ok
deriving Repr, DecidableEq

/-- Oracle environment of one hook invocation. -/
structure HookEnv where
  /-- parsed stdin; `none` when reading or parsing the input threw -/
  input : Option HookInput
  /-- `getConfig(hookCwd)` found a ProjectLink for the folder -/
  hasConfig : Bool
  /-- outcome of `authenticate` (consulted only without a config) -/
  oauth : OAuthOutcome
  /-- the transcript file exists and is readable -/
  transcriptReadable : Bool
  transcriptLines : List TranscriptLine
  /-- file-probe outcomes for the candidate plan paths -/
  probe : String → ReadOutcome
  cwd : String
  /-- `getProjectId()` result; `none` when it threw -/
  projectIdResult : Option String
  /-- current `active-plan.json` contents -/
  activePlan : Option ActivePlan
  /-- the `PUT /api/plans/:id/versions` request succeeds -/
  putOk : Bool
  /-- `POST /api/projects/:id/plans` outcome: `none` = the request
  threw; `some r` = it answered, `r` being
  `createResult?.planId || createResult?.id` -/
  postResult : Option (Option String)
  /-- `findFreePort()` succeeded -/
  portOk : Bool
  /-- requests reaching the callback server before its timeout -/
  requests : List HttpRequest

/-- The config guard: a stored config, or a successful on-demand OAuth. -/
def cfgResolved (e : HookEnv) : Bool :=
  e.hasConfig || (match e.oauth with | .ok => true | _ => false)

/-- `activePlan && activePlan.projectId === projectId &&
activePlan.sessionId === sessionId`. -/
def apMatches (ap : ActivePlan) (projectId : String)
    (sessionId : Option String) : Bool :=
  decide (ap.projectId = projectId) && decide (ap.sessionId = sessionId)

/-- How the upload stage ends: an exception escaping to the outer
catch, a POST answer without a plan id, or a resolved plan id; each
carries the plan-upload requests issued. -/
inductive UploadResult where
  | threw (calls : List String)
  | noId (calls : List String)
  | uploaded (planId : String) (calls : List String)
deriving Repr, DecidableEq

/-- The POST-new-plan fallback of the upload stage. -/
def postNewPlan (projectId : String) (postResult : Option (Option String))
    (prior : List String) : UploadResult :=
  let calls := prior ++ ["POST /api/projects/" ++ projectId ++ "/plans"]
  match postResult with
  | none => .threw calls
  | some none => .noId calls
  | some (some pid) => .uploaded pid calls

/-- The upload stage of `main`: a matching active plan is resubmitted
with `PUT /api/plans/:id/versions`; a missing or mismatched active
plan, or a failed PUT, falls back to POSTing a new plan. -/
def uploadPlan (ap : Option ActivePlan) (projectId : String)
    (sessionId : Option String) (putOk : Bool)
    (postResult : Option (Option String)) : UploadResult :=
  match ap with
  | some a =>
    if apMatches a projectId sessionId then
      if putOk then
        .uploaded a.planId ["PUT /api/plans/" ++ a.planId ++ "/versions"]
      else
        postNewPlan projectId postResult
          ["PUT /api/plans/" ++ a.planId ++ "/versions"]
    else postNewPlan projectId postResult []
  | none => postNewPlan projectId postResult []

/-- Result of one hook invocation: the stdout decision object, the exit
code, the plan-upload requests issued, and the final
`active-plan.json`. -/
structure HookRunResult where
  output : HookOutput
  exitCode : Nat
  uploadCalls : List String
  activePlan : Option ActivePlan
deriving Repr, DecidableEq

/-- `main` of review-plan.js (hook invocations, i.e. with an input
argument; the bare `help` invocation short-circuits before this flow). -/
def hookMain (e : HookEnv) : HookRunResult :=
  match e.input with
  | none => ⟨outputAllow, 0, [], e.activePlan⟩
  | some input =>
    if !cfgResolved e then ⟨outputAllow, 0, [], e.activePlan⟩
    else
      match resolvePlan input.toolInputPlan e.transcriptReadable
          e.transcriptLines e.probe e.cwd with
      | none => ⟨outputAllow, 0, [], e.activePlan⟩
      | some _plan =>
        match e.projectIdResult with
        | none => ⟨outputAllow, 0, [], e.activePlan⟩
        | some projectId =>
          match uploadPlan e.activePlan projectId input.sessionId
              e.putOk e.postResult with
          | .threw calls => ⟨outputAllow, 0, calls, e.activePlan⟩
          | .noId calls => ⟨outputAllow, 0, calls, e.activePlan⟩
          | .uploaded planId calls =>
            let ap := some (ActivePlan.mk planId projectId input.sessionId)
            if !e.portOk then ⟨outputAllow, 0, calls, ap⟩
            else
              match (waitForCallback e.requests).result with
              | .rejectedTimeout => ⟨outputAllow, 0, calls, ap⟩
              | .resolved decision feedback =>
                if decision = "deny" ∨ decision = "denied" ∨ decision = "reject" then
                  ⟨outputDeny feedback, 0, calls, ap⟩
                else
                  ⟨outputAllow, 0, calls, none⟩

/-! ## sync-task.js — the task-sync hook -/

/-- `tool_input.metadata` fields the hook consults; the structured
payloads (`todoList`, `relatedFiles`) are carried opaquely. -/
structure SyncMetadata where
  lightsprintTaskId : Option String
  complexity : Option String
  todoList : Option String
  relatedFiles : Option String
deriving Repr, DecidableEq

/-- `tool_input` of a TaskCreate/TaskUpdate hook event. -/
structure SyncToolInput where
  subject : Option String
  description : Option String
  status : Option String
  owner : Option String
  taskId : Option String
  metadata : Option SyncMetadata
deriving Repr, DecidableEq

/-- `tool_response` of a TaskCreate hook event. -/
structure SyncToolResponse where
  id : Option String
  taskId : Option String
deriving Repr, DecidableEq

/-- Parsed hook stdin. -/
structure SyncStdin where
  sessionId : Option String
  toolInput : Option SyncToolInput
  toolResponse : Option SyncToolResponse
deriving Repr, DecidableEq

/-- Oracle environment of one task-sync invocation. -/
structure SyncEnv where
  /-- `getConfig()` returned a config -/
  hasConfig : Bool
  /-- `process.argv[2]` -/
  action : Option String
  /-- parsed stdin; `none` when reading or parsing it threw -/
  stdin : Option SyncStdin
  /-- `getProjectId()` result (`none`: it threw) and how many network
  requests that resolution issued -/
  projectId : Option String
  projectIdCalls : Nat
  /-- `POST /api/projects/:id/tasks` outcome: `none` = threw, else
  `result?.id || result?.task?.id` -/
  createResult : Option (Option String)
  /-- `task-map.json` contents -/
  taskMap : List (String × String)

/-- JS `a || b` over nullable strings. -/
def jsOrOpt (a b : Option String) : Option String :=
  match truthyStr a with
  | some s => some s
  | none => truthyStr b

/-- JS object assignment `map[k] = v` on the association-list model. -/
def mapSet (m : List (String × String)) (k v : String) :
    List (String × String) :=
  if (m.find? fun p => p.fst = k).isSome then
    m.map fun p => if p.fst = k then (k, v) else p
  else m ++ [(k, v)]

/-- `getMapping(ccTaskId)`. -/
def getMapping (m : List (String × String)) (k : String) : Option String :=
  (m.find? fun p => p.fst = k).map (·.snd)

/-- `handleCreate`: returns the number of network requests issued and
the updated task map. -/
def handleCreate (env : SyncEnv) (ti : Option SyncToolInput)
    (tr : Option SyncToolResponse) : Nat × List (String × String) :=
  match jsOrOpt (tr.bind SyncToolResponse.id) (tr.bind SyncToolResponse.taskId) with
  | none => (0, env.taskMap)
  | some ccTaskId =>
    match truthyStr ((ti.bind SyncToolInput.metadata).bind SyncMetadata.lightsprintTaskId) with
    | some lsTaskId => (0, mapSet env.taskMap ccTaskId lsTaskId)
    | none =>
      match env.projectId with
      | none => (env.projectIdCalls, env.taskMap)
      | some _pid =>
        match env.createResult with
        | none => (env.projectIdCalls + 1, env.taskMap)
        | some r =>
          match truthyStr r with
          | some lsTaskId => (env.projectIdCalls + 1, mapSet env.taskMap ccTaskId lsTaskId)
          | none => (env.projectIdCalls + 1, env.taskMap)

/-- The PATCH body `handleUpdate` accumulates. -/
structure TaskPatch where
  title : Option String
  description : Option String
  projectStatus : Option String
  assignee : Option String
  complexity : Option String
  todoList : Option String
  relatedFiles : Option String
deriving Repr, DecidableEq

def emptyPatch : TaskPatch := ⟨none, none, none, none, none, none, none⟩

/-- The patch built by `handleUpdate` from `tool_input` (via
`ccToLsStatus` for the status field). -/
def buildUpdatePatch (ti : SyncToolInput) : TaskPatch where
  title := truthyStr ti.subject
  description := ti.description
  projectStatus :=
    match truthyStr ti.status with
    | some s => ccToLsStatus s
    | none => none
  assignee := ti.owner
  complexity :=
    match ti.metadata with
    | some m => truthyStr m.complexity
    | none => none
  todoList :=
    match ti.metadata with
    | some m => truthyStr m.todoList
    | none => none
  relatedFiles :=
    match ti.metadata with
    | some m => truthyStr m.relatedFiles
    | none => none

/-- `handleUpdate`: returns the number of network requests issued and
the (unchanged) task map. -/
def handleUpdate (env : SyncEnv) (ti : Option SyncToolInput) :
    Nat × List (String × String) :=
  match ti.bind SyncToolInput.taskId with
  | none => (0, env.taskMap)
  | some ccTaskId =>
    match getMapping env.taskMap ccTaskId with
    | none => (0, env.taskMap)
    | some _lsTaskId =>
      match ti with
      | none => (0, env.taskMap)
      | some tin =>
        if tin.status = some "deleted" then (1, env.taskMap)
        else if buildUpdatePatch tin = emptyPatch then (0, env.taskMap)
        else (1, env.taskMap)

/-- Result of one task-sync invocation. -/
structure SyncRunResult where
  exitCode : Nat
  networkCalls : Nat
  taskMap : List (String × String)
deriving Repr, DecidableEq

/-- `main` of sync-task.js: the config guard runs before stdin is even
read; every path exits 0. -/
def syncMain (env : SyncEnv) : SyncRunResult :=
  if !env.hasConfig then ⟨0, 0, env.taskMap⟩
  else
    match env.stdin with
    | none => ⟨0, 0, env.taskMap⟩
    | some input =>
      match env.action with
      | some a =>
        if a = "create" then
          let r := handleCreate env input.toolInput input.toolResponse
          ⟨0, r.fst, r.snd⟩
        else if a = "update" then
          let r := handleUpdate env input.toolInput
          ⟨0, r.fst, r.snd⟩
        else ⟨0, 0, env.taskMap⟩
      | none => ⟨0, 0, env.taskMap⟩

/-! ## ls-cli.js — `cmdCreate` -/

/-- The argument-parsing accumulator of `cmdCreate` (title tokens,
`--description`, `--complexity`, `--status` defaulting to `todo`). -/
structure CreateAcc where
  titleParts : List String
  description : Option String
  complexity : Option String
  status : String
deriving Repr, DecidableEq

/-- The `for (let i = 0; i < args.length; i++)` flag loop of
`cmdCreate`: a recognised flag with a truthy following token consumes
both; any other token joins the title. -/
def parseCreateArgs : List String → CreateAcc → CreateAcc
  | [], acc => acc
  | [a], acc => { acc with titleParts := acc.titleParts ++ [a] }
  | a :: v :: rest, acc =>
    if a = "--description" ∧ v ≠ "" then
      parseCreateArgs rest { acc with description := some v }
    else if a = "--complexity" ∧ v ≠ "" then
      parseCreateArgs rest { acc with complexity := some v }
    else if a = "--status" ∧ v ≠ "" then
      parseCreateArgs rest { acc with status := v }
    else
      parseCreateArgs (v :: rest) { acc with titleParts := acc.titleParts ++ [a] }

/-- The JSON body of the task-creation POST (absent fields are omitted
from the serialized object). -/
structure CreateBody where
  title : String
  projectStatus : String
  description : Option String
  complexity : Option String
deriving Repr, DecidableEq

/-- The task object in the API response. -/
structure ApiTask where
  id : String
  title : String
  projectStatus : Option String
  complexity : Option String
  description : Option String
deriving Repr, DecidableEq

/-- Result of one CLI command: exit code, the task requests issued
(endpoint and body), and the lines printed. -/
structure CliResult where
  exitCode : Nat
  requests : List (String × CreateBody)
  printed : List String
deriving Repr, DecidableEq

/-- The lines `cmdCreate` prints from the API response. -/
def cmdCreatePrinted (acc : CreateAcc) (t : ApiTask) : List String :=
  ["Created task: " ++ t.title, "ID: " ++ t.id,
   "Status: " ++ jsOr t.projectStatus acc.status] ++
  (match truthyStr t.complexity with
   | some c => if c = "unknown" then [] else ["Complexity: " ++ c]
   | none => []) ++
  (match truthyStr t.description with
   | some dsc => ["Description:", dsc]
   | none => []) ++
  ["To link this task in Claude Code, create a task with:",
   "  metadata: \x7b lightsprint_task_id: \"" ++ t.id ++ "\" \x7d"]

/-- `cmdCreate` of ls-cli.js, given the project id resolved from config
and the `data.task` object of the API response. -/
def cmdCreate (args : List String) (projectId : String) (respTask : ApiTask) :
    CliResult :=
  match args with
  | [] => ⟨1, [], ["Usage: lightsprint create <title> ..."]⟩
  | _ :: _ =>
    let acc := parseCreateArgs args ⟨[], none, none, "todo"⟩
    let title := String.intercalate " " acc.titleParts
    if title = "" then ⟨1, [], ["Error: title is required."]⟩
    else
      ⟨0,
       [("POST /api/projects/" ++ projectId ++ "/tasks",
         ⟨title, acc.status, acc.description, acc.complexity⟩)],
       cmdCreatePrinted acc respTask⟩

/-! ## Atomicity of the JSON record writes

`writeMap`, `setActiveTask` (lib/task-map.js) and `setActivePlan`
(lib/plan-tracker.js) write a fresh temp file and `renameSync` it over
the target; `writeProjectsFile` (lib/config.js) calls `writeFileSync`
directly on `projects.json`.  The step model below makes the crash
behaviour of both shapes explicit: a crash can interrupt a
`writeFile` after any prefix of the data, while a `rename` is atomic. -/

inductive WriteStep where
  /-- `writeFileSync(name, data)` -/
  | writeFile (name data : String)
  /-- `renameSync(src, dst)` -/
  | rename (src dst : String)
deriving Repr, DecidableEq

/-- The file system as an association list from name to contents. -/
abbrev FileSys := List (String × String)

def fsGet (fs : FileSys) (n : String) : Option String :=
  (fs.find? fun p => p.fst = n).map (·.snd)

def fsSet (fs : FileSys) (n v : String) : FileSys :=
  if (fs.find? fun p => p.fst = n).isSome then
    fs.map fun p => if p.fst = n then (n, v) else p
  else fs ++ [(n, v)]

def fsDel (fs : FileSys) (n : String) : FileSys :=
  fs.filter fun p => p.fst ≠ n

def applyStep (fs : FileSys) : WriteStep → FileSys
  | .writeFile n d => fsSet fs n d
  | .rename src dst =>
    match fsGet fs src with
    | some v => fsDel (fsSet fs dst v) src
    | none => fs

/-- All prefixes of a string. -/
def prefixStrings (s : String) : List String :=
  (List.range (s.length + 1)).map fun n => ⟨s.toList.take n⟩

/-- Every file-system state observable if the process crashes at any
point during the steps, or completes them: before each step, mid-way
through a `writeFile` (the target truncated and holding any prefix of
the data), and after each step. -/
def crashStates (fs : FileSys) : List WriteStep → List FileSys
  | [] => [fs]
  | .writeFile n d :: rest =>
    fs :: ((prefixStrings d).map fun p => fsSet fs n p) ++
      crashStates (fsSet fs n d) rest
  | .rename src dst :: rest =>
    fs :: crashStates (applyStep fs (.rename src dst)) rest

/-- `writeProjectsFile(data)` in lib/config.js: one direct
`writeFileSync` on `projects.json` — no temp file, no rename. -/
def writeProjectsFileSteps (json : String) : List WriteStep :=
  [.writeFile "projects.json" json]

/-- `writeMap(map)` in lib/task-map.js: write a fresh temp file, then
atomically rename it over `task-map.json`. -/
def writeMapSteps (tmpSuffix json : String) : List WriteStep :=
  [.writeFile ("task-map.json." ++ tmpSuffix) json,
   .rename ("task-map.json." ++ tmpSuffix) "task-map.json"]

/-! ## Theorems -/

/-- A malformed line never changes the outcome of the backwards scan. -/
theorem scanBack_skip_malformed (pre post : List TranscriptLine) :
    scanBack (pre ++ none :: post) = scanBack (pre ++ post) := by
  induction pre with
  | nil => simp [scanBack]
  | cons l rest ih =>
    cases l with
    | none => simp [scanBack, ih]
    | some e =>
      cases h : entryPlanContent e with
      | none => simp [scanBack, h, ih]
      | some c => simp [scanBack, h]

/-- C4: the plan-review hook resolves plan content by a strict
three-step priority: (1) a present (truthy) `tool_input.plan` is used
verbatim; (2) otherwise the transcript is scanned backwards and the
most recent assistant-authored `Write` to a plan-like path wins; (3)
otherwise the candidates `.claude/plan.md` then `plan.md` under the
working directory are probed and the first existing non-empty one is
used; each later step is consulted only when the earlier ones yield
nothing. -/
theorem plan_resolution_priority (p : String) (hp : p ≠ "")
    (readable : Bool) (lines : List TranscriptLine)
    (probe : String → ReadOutcome) (cwd : String)
    (es : List TranscriptLine) (e : TranscriptEntry) (c : String)
    (he : entryPlanContent e = some c) :
    resolvePlan (some p) readable lines probe cwd = some p ∧
    (∀ s, extractPlanFromTranscript readable lines = some s →
      resolvePlan none readable lines probe cwd = some s) ∧
    extractPlanFromTranscript true (es ++ [some e]) = some c ∧
    (extractPlanFromTranscript readable lines = none →
      resolvePlan none readable lines probe cwd =
        probeCandidates probe [cwd ++ "/.claude/plan.md", cwd ++ "/plan.md"]) ∧
    (∀ s, probe (cwd ++ "/.claude/plan.md") = .found s → jsTrim s ≠ "" →
      readPlanFromFile probe cwd = some (jsTrim s)) ∧
    (probe (cwd ++ "/.claude/plan.md") = .absent →
      readPlanFromFile probe cwd = probeCandidates probe [cwd ++ "/plan.md"]) := by
  refine ⟨?_, ?_, ?_, ?_, ?_, ?_⟩
  · simp [resolvePlan, truthyStr, hp]
  · intro s h
    simp [resolvePlan, truthyStr, h]
  · simp [extractPlanFromTranscript, scanBack, he]
  · intro h
    simp [resolvePlan, truthyStr, h, readPlanFromFile, planCandidates]
  · intro s h ht
    simp [readPlanFromFile, planCandidates, probeCandidates, h, ht]
  · intro h
    simp [readPlanFromFile, planCandidates, probeCandidates, h]

/-- Witness for `plan_resolution_priority`: a concrete plan string, a
concrete transcript entry writing `plan.md`, and a concrete probe. -/
theorem plan_resolution_priority_witness :
    resolvePlan (some "P") true [] (fun _ => .absent) "/w" = some "P" ∧
    extractPlanFromTranscript true
      ([none] ++ [some ⟨some ⟨some "assistant",
        some [⟨some "tool_use", some "Write", some "plan.md", some "PLAN"⟩]⟩⟩]) =
      some "PLAN" := by
  have h := plan_resolution_priority "P" (by decide) true [] (fun _ => .absent) "/w"
    [none]
    ⟨some ⟨some "assistant",
      some [⟨some "tool_use", some "Write", some "plan.md", some "PLAN"⟩]⟩⟩
    "PLAN" (by decide)
  exact ⟨h.1, h.2.2.1⟩

/-- C7: a malformed transcript line is skipped silently and never
changes the outcome of the backwards plan-extraction scan, and a read
error on a candidate plan-file path moves on to the next candidate
rather than failing the extraction. -/
theorem extraction_error_tolerance (readable : Bool)
    (pre post : List TranscriptLine)
    (probe : String → ReadOutcome) (c : String) (rest : List String)
    (hc : probe c = .readError) :
    extractPlanFromTranscript readable (pre ++ none :: post) =
      extractPlanFromTranscript readable (pre ++ post) ∧
    probeCandidates probe (c :: rest) = probeCandidates probe rest := by
  constructor
  · unfold extractPlanFromTranscript
    cases readable with
    | false => simp
    | true =>
      simp only [if_true]
      rw [List.reverse_append, List.reverse_cons, List.reverse_append]
      rw [List.append_assoc]
      exact scanBack_skip_malformed post.reverse pre.reverse
  · simp [probeCandidates, hc]

/-- Witness for `extraction_error_tolerance` at a concrete transcript
and an always-erroring probe. -/
theorem extraction_error_tolerance_witness :
    extractPlanFromTranscript true ([some ⟨none⟩] ++ none :: []) =
      extractPlanFromTranscript true ([some ⟨none⟩] ++ []) ∧
    probeCandidates (fun _ => .readError) ("/w/plan.md" :: []) =
      probeCandidates (fun _ => .readError) [] :=
  extraction_error_tolerance true [some ⟨none⟩] [] (fun _ => .readError)
    "/w/plan.md" [] rfl

/-- Updating a folder's entry is visible to a subsequent lookup. -/
theorem lookupFolder_updateFolder (ps : ProjectsFile) (f : String)
    (g : ProjectEntry → ProjectEntry) :
    lookupFolder (updateFolder ps f g) f = (lookupFolder ps f).map g := by
  induction ps with
  | nil => rfl
  | cons q rest ih =>
    by_cases h : q.fst = f
    · simp [lookupFolder, updateFolder, List.find?_cons, h]
    · simpa [lookupFolder, updateFolder, List.find?_cons, h] using ih

/-- C3: with more than 5 minutes of token validity left, `apiRequest`
performs no refresh call before the data request; with the token
expiring within 5 minutes (or already expired), exactly one
`POST /oauth/token` attempt is made first, a successful refresh
persists the new access token, refresh token and expiry into the
folder's `projects.json` entry, and a failed refresh (missing refresh
token, network error, or non-2xx response) aborts the call with the
explicit re-authenticate error without attempting the data request. -/
theorem token_refresh_policy (now : Nat) (rf : RefreshFetch) (df : DataFetch)
    (cfg : ClientConfig) (projects : ProjectsFile)
    (status : Nat) (data : RefreshData) :
    (tokenStillValid now cfg = true →
      (apiRequest now rf df cfg projects).refreshCalls = 0 ∧
      (apiRequest now rf df cfg projects).dataCalls = 1) ∧
    (tokenStillValid now cfg = false → strTruthy cfg.refreshToken = true →
      rf = .response status data → httpOk status = true →
      (apiRequest now rf df cfg projects).refreshCalls = 1 ∧
      (apiRequest now rf df cfg projects).dataCalls = 1 ∧
      ((lookupFolder projects cfg.folder).isSome = true →
        lookupFolder (apiRequest now rf df cfg projects).projects cfg.folder =
          (lookupFolder projects cfg.folder).map fun entry =>
            { entry with accessToken := data.accessToken,
                         refreshToken := data.refreshTokenNew,
                         expiresAt := now + data.expiresIn * 1000 })) ∧
    (tokenStillValid now cfg = false →
      (strTruthy cfg.refreshToken = false ∨ rf = .netError ∨
        (rf = .response status data ∧ httpOk status = false)) →
      (apiRequest now rf df cfg projects).result = .authError ∧
      (apiRequest now rf df cfg projects).dataCalls = 0) := by
  refine ⟨?_, ?_, ?_⟩
  · intro h
    simp [apiRequest, refreshTokenIfNeeded, h]
  · intro h1 h2 h3 h4
    subst h3
    refine ⟨?_, ?_, ?_⟩
    · simp [apiRequest, refreshTokenIfNeeded, h1, h2, h4]
    · simp [apiRequest, refreshTokenIfNeeded, h1, h2, h4]
    · intro hhit
      simp [apiRequest, refreshTokenIfNeeded, h1, h2, h4, hhit,
        lookupFolder_updateFolder]
  · intro h1 hfail
    rcases hfail with h2 | h2 | ⟨h2, h3⟩
    · simp [apiRequest, refreshTokenIfNeeded, h1, h2]
    · subst h2
      by_cases hrt : strTruthy cfg.refreshToken = false <;>
        simp [apiRequest, refreshTokenIfNeeded, h1, hrt]
    · subst h2
      by_cases hrt : strTruthy cfg.refreshToken = false <;>
        simp [apiRequest, refreshTokenIfNeeded, h1, hrt, h3]

/-- Witness for `token_refresh_policy`: a token expiring now is
refreshed exactly once and the new tokens land in `projects.json`; a
token valid for well over 5 minutes triggers no refresh call. -/
theorem token_refresh_policy_witness :
    ((apiRequest 0 (.response 200 ⟨"newA", "newR", 3600⟩) (.response 200 "ok")
        ⟨"/w", "oldA", some "oldR", some 1, "https://lightsprint.ai", none⟩
        [("/w", ⟨"oldA", "oldR", 1, some "pid", some "proj", none⟩)]).refreshCalls = 1 ∧
      lookupFolder (apiRequest 0 (.response 200 ⟨"newA", "newR", 3600⟩)
          (.response 200 "ok")
          ⟨"/w", "oldA", some "oldR", some 1, "https://lightsprint.ai", none⟩
          [("/w", ⟨"oldA", "oldR", 1, some "pid", some "proj", none⟩)]).projects "/w" =
        some ⟨"newA", "newR", 3600000, some "pid", some "proj", none⟩) ∧
    (apiRequest 0 (.response 200 ⟨"newA", "newR", 3600⟩) (.response 200 "ok")
        ⟨"/w", "oldA", some "oldR", some 10000000, "https://lightsprint.ai", none⟩
        [("/w", ⟨"oldA", "oldR", 10000000, some "pid", some "proj", none⟩)]).refreshCalls = 0 := by
  constructor
  · have h := (token_refresh_policy 0 (.response 200 ⟨"newA", "newR", 3600⟩)
      (.response 200 "ok")
      ⟨"/w", "oldA", some "oldR", some 1, "https://lightsprint.ai", none⟩
      [("/w", ⟨"oldA", "oldR", 1, some "pid", some "proj", none⟩)]
      200 ⟨"newA", "newR", 3600⟩).2.1 (by decide) (by decide) rfl (by decide)
    refine ⟨h.1, ?_⟩
    have h2 := h.2.2 (by decide)
    rw [h2]
    decide
  · exact ((token_refresh_policy 0 (.response 200 ⟨"newA", "newR", 3600⟩)
      (.response 200 "ok")
      ⟨"/w", "oldA", some "oldR", some 10000000, "https://lightsprint.ai", none⟩
      [("/w", ⟨"oldA", "oldR", 10000000, some "pid", some "proj", none⟩)]
      200 ⟨"newA", "newR", 3600⟩).1 (by decide)).1

/-- Every modelled hook invocation exits with code 0. -/
theorem hookMain_exitCode (e : HookEnv) : (hookMain e).exitCode = 0 := by
  unfold hookMain
  repeat' split
  all_goals rfl

/-- C1: the plan-review hook fails open — every invocation exits with
code 0, and each failure stage (unparseable stdin; OAuth skipped or
failed with no stored config; plan content unresolvable by all three
methods; `getProjectId` throwing; an upload exception or a POST answer
without a plan id; a failure binding the callback port; a callback
timeout) writes the allow decision object to stdout. -/
theorem hook_fail_open (e : HookEnv) :
    (hookMain e).exitCode = 0 ∧
    (e.input = none → (hookMain e).output = outputAllow) ∧
    (cfgResolved e = false → (hookMain e).output = outputAllow) ∧
    (∀ i, e.input = some i →
      resolvePlan i.toolInputPlan e.transcriptReadable e.transcriptLines
        e.probe e.cwd = none →
      (hookMain e).output = outputAllow) ∧
    (e.projectIdResult = none → (hookMain e).output = outputAllow) ∧
    (∀ i pid calls, e.input = some i → e.projectIdResult = some pid →
      (uploadPlan e.activePlan pid i.sessionId e.putOk e.postResult = .threw calls ∨
       uploadPlan e.activePlan pid i.sessionId e.putOk e.postResult = .noId calls) →
      (hookMain e).output = outputAllow) ∧
    (e.portOk = false → (hookMain e).output = outputAllow) ∧
    ((waitForCallback e.requests).result = .rejectedTimeout →
      (hookMain e).output = outputAllow) := by
  refine ⟨hookMain_exitCode e, ?_, ?_, ?_, ?_, ?_, ?_, ?_⟩
  · intro h
    simp [hookMain, h]
  · intro h
    cases hi : e.input with
    | none => simp [hookMain, hi]
    | some i => simp [hookMain, hi, h]
  · intro i hi hplan
    by_cases hc : cfgResolved e
    · simp [hookMain, hi, hc, hplan]
    · simp [hookMain, hi, hc]
  · intro h
    cases hi : e.input with
    | none => simp [hookMain, hi]
    | some i =>
      by_cases hc : cfgResolved e
      · cases hp : resolvePlan i.toolInputPlan e.transcriptReadable
            e.transcriptLines e.probe e.cwd with
        | none => simp [hookMain, hi, hc, hp]
        | some p => simp [hookMain, hi, hc, hp, h]
      · simp [hookMain, hi, hc]
  · intro i pid calls hi hpid hup
    by_cases hc : cfgResolved e
    · cases hp : resolvePlan i.toolInputPlan e.transcriptReadable
          e.transcriptLines e.probe e.cwd with
      | none => simp [hookMain, hi, hc, hp]
      | some p =>
        rcases hup with hup | hup <;> simp [hookMain, hi, hc, hp, hpid, hup]
    · simp [hookMain, hi, hc]
  · intro h
    cases hi : e.input with
    | none => simp [hookMain, hi]
    | some i =>
      by_cases hc : cfgResolved e
      · cases hp : resolvePlan i.toolInputPlan e.transcriptReadable
            e.transcriptLines e.probe e.cwd with
        | none => simp [hookMain, hi, hc, hp]
        | some p =>
          cases hpid : e.projectIdResult with
          | none => simp [hookMain, hi, hc, hp, hpid]
          | some pid =>
            cases hup : uploadPlan e.activePlan pid i.sessionId e.putOk e.postResult with
            | threw calls => simp [hookMain, hi, hc, hp, hpid, hup]
            | noId calls => simp [hookMain, hi, hc, hp, hpid, hup]
            | uploaded planId calls => simp [hookMain, hi, hc, hp, hpid, hup, h]
      · simp [hookMain, hi, hc]
  · intro h
    cases hi : e.input with
    | none => simp [hookMain, hi]
    | some i =>
      by_cases hc : cfgResolved e
      · cases hp : resolvePlan i.toolInputPlan e.transcriptReadable
            e.transcriptLines e.probe e.cwd with
        | none => simp [hookMain, hi, hc, hp]
        | some p =>
          cases hpid : e.projectIdResult with
          | none => simp [hookMain, hi, hc, hp, hpid]
          | some pid =>
            cases hup : uploadPlan e.activePlan pid i.sessionId e.putOk e.postResult with
            | threw calls => simp [hookMain, hi, hc, hp, hpid, hup]
            | noId calls => simp [hookMain, hi, hc, hp, hpid, hup]
            | uploaded planId calls =>
              by_cases hpo : e.portOk
              · simp [hookMain, hi, hc, hp, hpid, hup, hpo, h]
              · simp [hookMain, hi, hc, hp, hpid, hup, hpo]
      · simp [hookMain, hi, hc]

/-- Witness for `hook_fail_open`: with unparseable stdin the hook
allows and exits 0; with no plan resolvable by any method (no
`tool_input.plan`, an unreadable transcript, and all file probes
absent) the hook allows and exits 0. -/
theorem hook_fail_open_witness :
    (hookMain ⟨none, false, .threw, false, [], (fun _ => .absent), "/w",
        none, none, false, none, false, []⟩).output = outputAllow ∧
    (hookMain ⟨some ⟨none, none⟩, true, .threw, false, [],
        (fun _ => .absent), "/w", none, none, false, none, false, []⟩).output =
      outputAllow ∧
    (hookMain ⟨some ⟨none, none⟩, true, .threw, false, [],
        (fun _ => .absent), "/w", none, none, false, none, false, []⟩).exitCode = 0 := by
  refine ⟨?_, ?_, ?_⟩
  · exact (hook_fail_open _).2.1 rfl
  · exact (hook_fail_open _).2.2.2.1 ⟨none, none⟩ rfl rfl
  · exact (hook_fail_open _).1

/-- C8: on a completed review, the `active-plan.json` record is cleared
exactly on an approval decision and retained (pointing at the plan just
submitted) on `deny`/`denied`/`reject`; and the upload stage resubmits
a matching active plan as a new version via
`PUT /api/plans/:id/versions`, POSTing a new plan only when no matching
active plan exists or the PUT fails. -/
theorem active_plan_lifecycle (e : HookEnv) (i : HookInput)
    (plan pid planId : String) (calls : List String) (d f : String)
    (hin : e.input = some i)
    (hcfg : cfgResolved e = true)
    (hplan : resolvePlan i.toolInputPlan e.transcriptReadable
      e.transcriptLines e.probe e.cwd = some plan)
    (hpid : e.projectIdResult = some pid)
    (hup : uploadPlan e.activePlan pid i.sessionId e.putOk e.postResult =
      .uploaded planId calls)
    (hport : e.portOk = true)
    (hcb : (waitForCallback e.requests).result = .resolved d f) :
    ((d = "deny" ∨ d = "denied" ∨ d = "reject") →
      (hookMain e).activePlan = some ⟨planId, pid, i.sessionId⟩ ∧
      (hookMain e).output = outputDeny f) ∧
    ((d = "allow" ∨ d = "allowed") →
      (hookMain e).activePlan = none ∧
      (hookMain e).output = outputAllow) ∧
    (∀ a post, apMatches a pid i.sessionId = true →
      uploadPlan (some a) pid i.sessionId true post =
        .uploaded a.planId ["PUT /api/plans/" ++ a.planId ++ "/versions"]) ∧
    (∀ r, uploadPlan none pid i.sessionId e.putOk (some (some r)) =
      .uploaded r ["POST /api/projects/" ++ pid ++ "/plans"]) ∧
    (∀ a r, apMatches a pid i.sessionId = false →
      uploadPlan (some a) pid i.sessionId e.putOk (some (some r)) =
        .uploaded r ["POST /api/projects/" ++ pid ++ "/plans"]) ∧
    (∀ a r, apMatches a pid i.sessionId = true →
      uploadPlan (some a) pid i.sessionId false (some (some r)) =
        .uploaded r ["PUT /api/plans/" ++ a.planId ++ "/versions",
                     "POST /api/projects/" ++ pid ++ "/plans"]) := by
  refine ⟨?_, ?_, ?_, ?_, ?_, ?_⟩
  · intro hd
    constructor <;>
      simp [hookMain, hin, hcfg, hplan, hpid, hup, hport, hcb, hd]
  · intro hd
    have hnd : ¬(d = "deny" ∨ d = "denied" ∨ d = "reject") := by
      rcases hd with hd | hd <;> subst hd <;> simp
    constructor <;>
      simp [hookMain, hin, hcfg, hplan, hpid, hup, hport, hcb, hnd]
  · intro a post hm
    simp [uploadPlan, hm]
  · intro r
    simp [uploadPlan, postNewPlan]
  · intro a r hm
    simp [uploadPlan, postNewPlan, hm]
  · intro a r hm
    simp [uploadPlan, postNewPlan, hm]

/-- Witness for `active_plan_lifecycle`: a concrete denied review whose
matching active plan is resubmitted via PUT and retained. -/
theorem active_plan_lifecycle_witness :
    (hookMain ⟨some ⟨some "PLAN", some "sess"⟩, true, .threw, false, [],
        (fun _ => .absent), "/w", some "proj",
        some ⟨"plan1", "proj", some "sess"⟩, true, some (some "plan2"), true,
        [⟨"/callback", "decision=deny&feedback=no"⟩]⟩).activePlan =
      some ⟨"plan1", "proj", some "sess"⟩ ∧
    (hookMain ⟨some ⟨some "PLAN", some "sess"⟩, true, .threw, false, [],
        (fun _ => .absent), "/w", some "proj",
        some ⟨"plan1", "proj", some "sess"⟩, true, some (some "plan2"), true,
        [⟨"/callback", "decision=deny&feedback=no"⟩]⟩).output = outputDeny "no" ∧
    uploadPlan (some ⟨"plan1", "proj", some "sess"⟩) "proj" (some "sess")
        true (some (some "plan2")) =
      .uploaded "plan1" ["PUT /api/plans/plan1/versions"] := by
  have h := active_plan_lifecycle
    ⟨some ⟨some "PLAN", some "sess"⟩, true, .threw, false, [],
      (fun _ => .absent), "/w", some "proj",
      some ⟨"plan1", "proj", some "sess"⟩, true, some (some "plan2"), true,
      [⟨"/callback", "decision=deny&feedback=no"⟩]⟩
    ⟨some "PLAN", some "sess"⟩ "PLAN" "proj" "plan1"
    ["PUT /api/plans/plan1/versions"] "deny" "no"
    rfl rfl (by decide) rfl (by decide) rfl (by decide)
  have hd := h.1 (Or.inl rfl)
  exact ⟨hd.1, hd.2, h.2.2.1 ⟨"plan1", "proj", some "sess"⟩
    (some (some "plan2")) (by decide)⟩

/-- C6: a task-sync invocation with no project configuration for the
folder exits with code 0 having made zero network calls. -/
theorem sync_skip_without_config (env : SyncEnv)
    (h : env.hasConfig = false) :
    (syncMain env).exitCode = 0 ∧ (syncMain env).networkCalls = 0 := by
  simp [syncMain, h]

/-- Witness for `sync_skip_without_config` at a concrete unconfigured
environment. -/
theorem sync_skip_without_config_witness :
    (syncMain ⟨false, some "create",
        some ⟨some "s", none, some ⟨some "t1", none⟩⟩,
        some "proj", 0, some (some "ls1"), []⟩).exitCode = 0 ∧
    (syncMain ⟨false, some "create",
        some ⟨some "s", none, some ⟨some "t1", none⟩⟩,
        some "proj", 0, some (some "ls1"), []⟩).networkCalls = 0 :=
  sync_skip_without_config _ rfl

/-- C9: `create "Fix login bug" --complexity high` issues exactly one
`POST /api/projects/:id/tasks` whose body is
`{title: "Fix login bug", complexity: "high", projectStatus: "todo"}`
with no description field, and prints the task id returned by the API. -/
theorem cli_create_request (pid : String) (t : ApiTask) :
    (cmdCreate ["Fix login bug", "--complexity", "high"] pid t).requests =
      [("POST /api/projects/" ++ pid ++ "/tasks",
        ⟨"Fix login bug", "todo", none, some "high"⟩)] ∧
    ("ID: " ++ t.id) ∈
      (cmdCreate ["Fix login bug", "--complexity", "high"] pid t).printed ∧
    (cmdCreate ["Fix login bug", "--complexity", "high"] pid t).exitCode = 0 := by
  refine ⟨?_, ?_, ?_⟩ <;>
    simp [cmdCreate, parseCreateArgs, cmdCreatePrinted, String.intercalate,
      String.intercalate.go]

/-- C5 (refuting evidence): the temp-then-rename write of
`task-map.json` exposes only the old or the new contents at every
crash point, but a crash during `writeProjectsFile` can leave
`projects.json` holding a strict prefix of the new serialized record —
a partial file — contradicting the claim that every record write
(including the ProjectLink table) is atomic via temp-file-plus-rename.
(The contents stand for serialized JSON records.) -/
theorem projects_write_not_atomic :
    (∀ fs ∈ crashStates [("task-map.json", "OLD")] (writeMapSteps "4fa2" "NEWDATA"),
      fsGet fs "task-map.json" = some "OLD" ∨
      fsGet fs "task-map.json" = some "NEWDATA") ∧
    (∃ fs ∈ crashStates [("projects.json", "OLD")] (writeProjectsFileSteps "NEWDATA"),
      fsGet fs "projects.json" = some "NEW") ∧
    ("NEW" : String) ≠ "OLD" ∧ ("NEW" : String) ≠ "NEWDATA" := by
  decide

/-- C2: for the plan-review callback server `waitForCallback`, a request
to `/callback?decision=deny&feedback=not+ready` resolves the wait with
`{decision: "deny", feedback: "not ready"}`; a `/callback` request whose
query string carries no `decision` (nor `feedback`) parameter resolves
with decision `"allow"` and empty feedback; and when no `/callback`
request arrives before the timeout, the wait rejects with a timeout
error and the listening server, including its open sockets, is closed. -/
theorem waitForCallback_spec (q : String)
    (hd : searchParamsGet q "decision" = none)
    (hf : searchParamsGet q "feedback" = none) :
    waitForCallback [⟨"/callback", "decision=deny&feedback=not+ready"⟩] =
      ⟨.resolved "deny" "not ready", true, true⟩ ∧
    waitForCallback [⟨"/callback", q⟩] = ⟨.resolved "allow" "", true, true⟩ ∧
    waitForCallback [] = ⟨.rejectedTimeout, true, true⟩ := by
  refine ⟨by decide, ?_, by decide⟩
  simp [waitForCallback, handleCallbackRequest, hd, hf, jsOr]

/-- Witness for `waitForCallback_spec` at the concrete query `x=1`. -/
theorem waitForCallback_spec_witness :
    waitForCallback [⟨"/callback", "x=1"⟩] = ⟨.resolved "allow" "", true, true⟩ :=
  (waitForCallback_spec "x=1" (by decide) (by decide)).2.1

/-- C10: the status mapping round-trips on every Claude Code status
(`pending`, `in_progress`, `completed`); `ccToLsStatus` is `undefined`
on every other input string; `lsToCcStatus` sends both `in_progress`
and `in_review` to `in_progress`, so the reverse composition is not the
identity on Lightsprint statuses (it collapses `in_review`). -/
theorem status_mapping_spec (s : String)
    (hs : s ≠ "pending" ∧ s ≠ "in_progress" ∧ s ≠ "completed") :
    ((ccToLsStatus "pending").bind lsToCcStatus = some "pending" ∧
     (ccToLsStatus "in_progress").bind lsToCcStatus = some "in_progress" ∧
     (ccToLsStatus "completed").bind lsToCcStatus = some "completed") ∧
    ccToLsStatus s = none ∧
    (lsToCcStatus "in_progress" = some "in_progress" ∧
     lsToCcStatus "in_review" = some "in_progress" ∧
     (lsToCcStatus "in_review").bind ccToLsStatus ≠ some "in_review") := by
  refine ⟨by decide, ?_, by decide⟩
  simp [ccToLsStatus, hs.1, hs.2.1, hs.2.2]

/-- Witness for `status_mapping_spec` at the unmapped status `deleted`. -/
theorem status_mapping_spec_witness :
    ccToLsStatus "deleted" = none :=
  (status_mapping_spec "deleted" (by decide)).2.1

end Lightsprint
